import Mathlib

/-!
Shallow embedding of the snapmetrics windowed-observation store
(src/index.ts, src/stats.ts) and proofs of its specification claims.

Numbers: the source works with JavaScript float64; the embedding uses ℚ,
which is exact on every input appearing in the claims.  Timestamps
(`performance.now()` values) are also modelled as ℚ and passed explicitly.
The expiry throttle is an external scheduling policy (spec §1, §5): an
expiry pass either runs or does not, so trace operations carry it
explicitly.
-/

namespace SnapMetrics

/-- An observation: `{timestamp, value}` as pushed by `record` (index.ts:198). -/
structure Obs where
  timestamp : ℚ
  value : ℚ
deriving DecidableEq

/-- Per-window state `WindowData` (index.ts:14-19): running sum, running count,
queue of timestamped values (head = oldest), optional sorted-value cache. -/
structure WindowData where
  sum : ℚ
  count : ℤ
  queue : List Obs
  sortedValues : Option (List ℚ)
deriving DecidableEq

/-- A freshly constructed window: `{ sum: 0, count: 0, queue: new Denque() }`
(index.ts:86); the optional `sortedValues` field starts absent. -/
def initWindow : WindowData :=
  { sum := 0, count := 0, queue := [], sortedValues := none }

/-- The raw values of a window's queue in queue order:
`window.queue.toArray().map((v) => v.value)` (index.ts:167). -/
def windowValues (w : WindowData) : List ℚ :=
  w.queue.map (fun o => o.value)

/-- Embedding of `values.sort((a, b) => a - b)` (index.ts:171): the ascending
numeric sort.  Any comparison sort yields the same list (the sorted
permutation of a multiset is unique), so a structurally recursive sort is
used to keep the definition kernel-evaluable. -/
def jsSort (values : List ℚ) : List ℚ :=
  List.insertionSort (fun a b => a ≤ b) values

/-- The `SortRequirement` enum (index.ts:32-37). -/
inductive SortRequirement where
  | SORTED
  | PREFER_SORTED
  | UNSORTED
  | ANY
deriving DecidableEq

/-- Embedding of `getValues` (index.ts:145-184) for an existing window.  The
result pairs the `ValueResult` (`values`, `isSorted`) with the updated window
state (the SORTED path stores the freshly sorted list into the cache). -/
def getValues (w : WindowData) (sr : SortRequirement) :
    (List ℚ × Bool) × WindowData :=
  if w.count = 0 then (([], true), w)
  else
    let cacheHit : Option (List ℚ) :=
      match w.sortedValues with
      | some c =>
        if c.length = w.queue.length ∧ sr ≠ SortRequirement.UNSORTED then some c
        else none
      | none => none
    match cacheHit with
    | some c => ((c, true), w)
    | none =>
      let values := windowValues w
      match sr with
      | SortRequirement.SORTED =>
        let sortedValues := jsSort values
        ((sortedValues, true), { w with sortedValues := some sortedValues })
      | SortRequirement.PREFER_SORTED => ((values, false), w)
      | SortRequirement.UNSORTED => ((values, false), w)
      | SortRequirement.ANY => ((values, false), w)

/-- Embedding of the per-window effect of `record` (index.ts:197-201):
append `{timestamp, value}`, add to the sum, increment the count.
The cache field is not touched by the source. -/
def record (t v : ℚ) (w : WindowData) : WindowData :=
  { w with
    queue := w.queue ++ [{ timestamp := t, value := v }]
    sum := w.sum + v
    count := w.count + 1 }

/-- State carried by the expiry while-loop of `removeExpiredRecords`
(index.ts:105-115): the remaining queue, adjusted sum and count, and the
`expired` flag recording whether any pop occurred. -/
structure ExpireState where
  queue : List Obs
  sum : ℚ
  count : ℤ
  expired : Bool
deriving DecidableEq

/-- The while-loop of `removeExpiredRecords` (index.ts:107-115): while the
queue is non-empty and `now - head.timestamp > expiryTime`, shift the head,
subtract its value from the sum, decrement the count, and set `expired`. -/
def expireLoop (now expiryTime : ℚ) : List Obs → ℚ → ℤ → ExpireState
  | [], s, c => ⟨[], s, c, false⟩
  | o :: rest, s, c =>
    if expiryTime < now - o.timestamp then
      let r := expireLoop now expiryTime rest (s - o.value) (c - 1)
      ⟨r.queue, r.sum, r.count, true⟩
    else ⟨o :: rest, s, c, false⟩

/-- Per-window effect of `removeExpiredRecords` (index.ts:100-121): run the
expiry loop; if at least one record expired, delete the sorted-value cache. -/
def removeExpiredRecords (now expiryTime : ℚ) (w : WindowData) : WindowData :=
  let r := expireLoop now expiryTime w.queue w.sum w.count
  { sum := r.sum, count := r.count, queue := r.queue
    sortedValues := if r.expired then none else w.sortedValues }

/-- Embedding of `calculateAverage` (stats.ts:7-14); the optional `sum`
argument models the `sum ?? values.reduce(...)` fallback. -/
def calculateAverage (values : List ℚ) (sum : Option ℚ) : Option ℚ :=
  if values.length = 0 then none
  else some ((sum.getD (values.foldl (· + ·) 0)) / values.length)

/-- Embedding of `calculatePercentile` (stats.ts:22-42), the Hyndman–Fan
type 7 interpolation.  `⌊·⌋`/`⌈·⌉` model `Math.floor`/`Math.ceil`;
`List.getD · · 0` models the (in-range, non-null-asserted) array accesses. -/
def calculatePercentile (sortedValues : List ℚ) (percentile : ℚ) : Option ℚ :=
  if sortedValues.length = 0 then none
  else if sortedValues.length = 1 then some (sortedValues.getD 0 0)
  else
    let p := percentile / 100
    let h := ((sortedValues.length : ℚ) - 1) * p + 1
    let hFloor : ℤ := ⌊h⌋
    if h = (hFloor : ℚ) then some (sortedValues.getD (hFloor - 1).toNat 0)
    else
      let hCeil : ℤ := ⌈h⌉
      let lower := sortedValues.getD (hFloor - 1).toNat 0
      let upper := sortedValues.getD (hCeil - 1).toNat 0
      some (lower + (h - (hFloor : ℚ)) * (upper - lower))

/-- Embedding of `calculateMinimum` (stats.ts:49-50): `Math.min(...values)`
on a non-empty list is the fold of binary min over its elements. -/
def calculateMinimum (values : List ℚ) : Option ℚ :=
  match values with
  | [] => none
  | x :: xs => some (xs.foldl min x)

/-- Embedding of `calculateMaximum` (stats.ts:57-58). -/
def calculateMaximum (values : List ℚ) : Option ℚ :=
  match values with
  | [] => none
  | x :: xs => some (xs.foldl max x)

/-- Embedding of `calculateStandardDeviation` (stats.ts:66-75) up to the
final `Math.sqrt`, which has no exact counterpart over ℚ: this definition
returns the variance.  The result is `none` exactly when the source returns
`null` (empty input), which is what the claims about nullability need. -/
def calculateStandardDeviation (values : List ℚ) (mean : Option ℚ) : Option ℚ :=
  if values.length = 0 then none
  else
    let avg := mean.getD ((calculateAverage values none).getD 0)
    let squaredDiffs := values.map (fun value => (value - avg) ^ 2)
    some ((squaredDiffs.foldl (· + ·) 0) / values.length)

/-- Per-window mapper of `getCounts` (index.ts:251). -/
def getCountsWindow (w : WindowData) : ℤ :=
  w.count

/-- Per-window mapper of `getSums` (index.ts:275-277). -/
def getSumsWindow (w : WindowData) : Option ℚ :=
  if w.count = 0 then none else some w.sum

/-- Per-window mapper of `getAverages` (index.ts:301-305), paired with the
updated window state threaded out of `getValues`. -/
def getAveragesWindow (w : WindowData) : Option ℚ × WindowData :=
  if w.count = 0 then (none, w)
  else
    let r := getValues w SortRequirement.ANY
    (calculateAverage r.1.1 (some w.sum), r.2)

/-- Per-window mapper of `getMedians` (index.ts:327-334). -/
def getMediansWindow (w : WindowData) : Option ℚ × WindowData :=
  if w.count = 0 then (none, w)
  else
    let r := getValues w SortRequirement.SORTED
    (calculatePercentile r.1.1 50, r.2)

/-- Per-window mapper of `getPercentiles` (index.ts:359-366), after the
argument-range guard has passed. -/
def getPercentileWindow (p : ℚ) (w : WindowData) : Option ℚ × WindowData :=
  if w.count = 0 then (none, w)
  else
    let r := getValues w SortRequirement.SORTED
    (calculatePercentile r.1.1 p, r.2)

/-- Per-window mapper of `getMinimums` (index.ts:389-396). -/
def getMinimumsWindow (w : WindowData) : Option ℚ × WindowData :=
  if w.count = 0 then (none, w)
  else
    let r := getValues w SortRequirement.PREFER_SORTED
    (if r.1.2 then some (r.1.1.getD 0 0) else calculateMinimum r.1.1, r.2)

/-- Per-window mapper of `getMaximums` (index.ts:416-423). -/
def getMaximumsWindow (w : WindowData) : Option ℚ × WindowData :=
  if w.count = 0 then (none, w)
  else
    let r := getValues w SortRequirement.PREFER_SORTED
    (if r.1.2 then some (r.1.1.getD (r.1.1.length - 1) 0) else calculateMaximum r.1.1,
     r.2)

/-- Per-window mapper of `getStandardDeviations` (index.ts:445-450). -/
def getStandardDeviationsWindow (w : WindowData) : Option ℚ × WindowData :=
  if w.count = 0 then (none, w)
  else
    let r := getValues w SortRequirement.ANY
    (calculateStandardDeviation r.1.1 (some (w.sum / w.count)), r.2)

/-- Trace operations on a single window: a `record` call, an expiry pass at
a given time, or a statistic query's `getValues` access (which can populate
the sorted cache). -/
inductive Op where
  | record (t v : ℚ)
  | expire (now : ℚ)
  | query (sr : SortRequirement)
deriving DecidableEq

/-- One trace step on a window of duration `D`. -/
def applyOp (D : ℚ) (w : WindowData) : Op → WindowData
  | Op.record t v => record t v w
  | Op.expire now => removeExpiredRecords now D w
  | Op.query sr => (getValues w sr).2

/-- A trace of operations on a window of duration `D`. -/
def applyOps (D : ℚ) (w : WindowData) (ops : List Op) : WindowData :=
  ops.foldl (applyOp D) w

/-- The store: configured windows in configuration order, each keyed by its
parsed duration (index.ts:81-87). -/
abbrev Store := List (ℚ × WindowData)

/-- A freshly constructed store over the given durations (index.ts:85-87). -/
def initStore (durations : List ℚ) : Store :=
  durations.map (fun D => (D, initWindow))

/-- One trace step applied to every window of the store (`record` and
`removeExpiredRecords` both loop over all windows; queries map over them). -/
def applyStoreOp (s : Store) (op : Op) : Store :=
  s.map (fun p => (p.1, applyOp p.1 p.2 op))

/-- A trace of operations on a store. -/
def applyStoreOps (s : Store) (ops : List Op) : Store :=
  ops.foldl applyStoreOp s

/-- Embedding of `getPercentiles` (index.ts:352-374) at store level.  The
range guard precedes everything else; `runExpiry` models the externally
throttled expiry trigger (spec §1/§5: the throttle either runs the pass or
skips it). -/
def getPercentilesStore (runExpiry : Bool) (now p : ℚ) (s : Store) :
    Except String (List (Option ℚ)) × Store :=
  if p < 0 ∨ 100 < p then
    (Except.error "Percentile must be between 0 and 100", s)
  else
    let s1 := if runExpiry then s.map (fun q => (q.1, removeExpiredRecords now q.1 q.2)) else s
    let rs := s1.map (fun q => (q.1, getPercentileWindow p q.2))
    (Except.ok (rs.map (fun q => q.2.1)), rs.map (fun q => (q.1, q.2.2)))

/-- Per-window state of the second source variant (index.ts:531-535), which
has no sorted-value cache. -/
structure WindowDataV2 where
  sum : ℚ
  count : ℤ
  queue : List Obs
deriving DecidableEq

/-- A freshly constructed window of the second variant (index.ts:604). -/
def initWindowV2 : WindowDataV2 :=
  { sum := 0, count := 0, queue := [] }

/-- JavaScript `Math.round`: round half toward positive infinity. -/
def jsRound (q : ℚ) : ℤ :=
  ⌊q + 1 / 2⌋

/-- Per-window extractor of the second variant's `getAverages`
(index.ts:727-731): `count === 0 ? 0 : Math.round((sum / count) * 100) / 100`. -/
def getAveragesV2 (w : WindowDataV2) : ℚ :=
  if w.count = 0 then 0 else (jsRound ((w.sum / w.count) * 100) : ℚ) / 100

/-- One-indexed access `v[i]` as used by the specification text. -/
def nth1 (v : List ℚ) (i : ℤ) : ℚ :=
  v.getD (i - 1).toNat 0

/-- Specification-side definition of the Hyndman–Fan type 7 estimator,
written from the spec's words (spec §4.2, percentile row) for comparison
with `calculatePercentile`: `h = (n-1)*(p/100) + 1`; if `h` is an integer
the result is `v[h]`, else `v[floor h] + (h - floor h)*(v[ceil h] - v[floor h])`;
for `n == 1` the result is the single value regardless of `p`. -/
def hf7Type7Spec (v : List ℚ) (p : ℚ) : ℚ :=
  if v.length = 1 then nth1 v 1
  else
    let f := p / 100
    let h := ((v.length : ℚ) - 1) * f + 1
    if h.den = 1 then nth1 v h.num
    else nth1 v ⌊h⌋ + (h - (⌊h⌋ : ℚ)) * (nth1 v ⌈h⌉ - nth1 v ⌊h⌋)

/-- A JavaScript number as it participates in the percentile computation:
a finite value, `NaN`, or `undefined` (the result of an out-of-range array
access).  Infinities are not modelled; no operation below produces one on
the inputs of the claims. -/
inductive JVal where
  | nan
  | undef
  | num (q : ℚ)
deriving DecidableEq

/-- JavaScript `+` on numbers: `NaN` (and `undefined`, which coerces to
`NaN`) propagates. -/
def jAdd : JVal → JVal → JVal
  | JVal.num a, JVal.num b => JVal.num (a + b)
  | _, _ => JVal.nan

/-- JavaScript `-` on numbers. -/
def jSub : JVal → JVal → JVal
  | JVal.num a, JVal.num b => JVal.num (a - b)
  | _, _ => JVal.nan

/-- JavaScript `*` on numbers. -/
def jMul : JVal → JVal → JVal
  | JVal.num a, JVal.num b => JVal.num (a * b)
  | _, _ => JVal.nan

/-- JavaScript `/` on numbers; division by zero (which yields an infinity
in JavaScript) is mapped to `nan` — it never occurs below, where the only
divisor is the literal `100`. -/
def jDiv : JVal → JVal → JVal
  | JVal.num a, JVal.num b => if b = 0 then JVal.nan else JVal.num (a / b)
  | _, _ => JVal.nan

/-- JavaScript `Math.floor`: `NaN` in, `NaN` out. -/
def jFloor : JVal → JVal
  | JVal.num a => JVal.num (⌊a⌋ : ℤ)
  | _ => JVal.nan

/-- JavaScript `Math.ceil`. -/
def jCeil : JVal → JVal
  | JVal.num a => JVal.num (⌈a⌉ : ℤ)
  | _ => JVal.nan

/-- JavaScript strict equality `===` restricted to these values:
`NaN === NaN` is `false`. -/
def jStrictEq : JVal → JVal → Bool
  | JVal.num a, JVal.num b => decide (a = b)
  | JVal.undef, JVal.undef => true
  | _, _ => false

/-- JavaScript `<` on numbers: any comparison involving `NaN` (or
`undefined`, which coerces to `NaN`) is `false`. -/
def jLt : JVal → JVal → Bool
  | JVal.num a, JVal.num b => decide (a < b)
  | _, _ => false

/-- JavaScript array indexing `xs[i]`: `undefined` unless `i` is an integer
within bounds (so `xs[NaN]` is `undefined`). -/
def jIndex (xs : List ℚ) : JVal → JVal
  | JVal.num k =>
    if k.den = 1 ∧ 0 ≤ k.num ∧ k.num < xs.length then JVal.num (xs.getD k.num.toNat 0)
    else JVal.undef
  | _ => JVal.undef

/-- Embedding of `calculatePercentile` (stats.ts:22-42) with JavaScript
`NaN`/`undefined` semantics, for the claim about a `NaN` percentile
argument.  On `num` arguments it mirrors `calculatePercentile` exactly. -/
def calculatePercentileJS (sortedValues : List ℚ) (percentile : JVal) : Option JVal :=
  if sortedValues.length = 0 then none
  else if sortedValues.length = 1 then some (JVal.num (sortedValues.getD 0 0))
  else
    let p := jDiv percentile (JVal.num 100)
    let h := jAdd (jMul (JVal.num ((sortedValues.length : ℚ) - 1)) p) (JVal.num 1)
    let hFloor := jFloor h
    if jStrictEq h hFloor then some (jIndex sortedValues (jSub hFloor (JVal.num 1)))
    else
      let hCeil := jCeil h
      let lower := jIndex sortedValues (jSub hFloor (JVal.num 1))
      let upper := jIndex sortedValues (jSub hCeil (JVal.num 1))
      some (jAdd lower (jMul (jSub h hFloor) (jSub upper lower)))

/-- Per-window embedding of `getPercentiles` (index.ts:352-374) with
JavaScript number semantics for the percentile argument: the range guard
`percentile < 0 || percentile > 100` using JavaScript comparisons, then the
per-window mapper. -/
def getPercentilesJS (p : JVal) (w : WindowData) :
    Except String (Option JVal × WindowData) :=
  if jLt p (JVal.num 0) || jLt (JVal.num 100) p then
    Except.error "Percentile must be between 0 and 100"
  else if w.count = 0 then Except.ok (none, w)
  else
    let r := getValues w SortRequirement.SORTED
    Except.ok (calculatePercentileJS r.1.1 p, r.2)

/-- The coherence invariant tying a window's running fields to its queue:
the running count is the queue length, the running sum is the sum of the
queued values, and a present sorted cache is the ascending sort of the
first `cache.length` queued values (record appends at the tail, so a cache
that was valid when computed stays the sort of a queue prefix). -/
def WindowInv (w : WindowData) : Prop :=
  w.count = w.queue.length ∧
  w.sum = (windowValues w).sum ∧
  ∀ c, w.sortedValues = some c →
    c.length ≤ w.queue.length ∧
    c = jsSort ((w.queue.take c.length).map (fun o => o.value))

theorem expireLoop_not_expired (now D : ℚ) :
    ∀ (q : List Obs) (s : ℚ) (c : ℤ),
      (expireLoop now D q s c).expired = false →
      expireLoop now D q s c = ⟨q, s, c, false⟩
  | [], s, c, _ => rfl
  | o :: rest, s, c, h => by
    by_cases hp : D < now - o.timestamp
    · simp [expireLoop, if_pos hp] at h
    · simp only [expireLoop, if_neg hp]

theorem expireLoop_expired_length (now D : ℚ) :
    ∀ (q : List Obs) (s : ℚ) (c : ℤ),
      (expireLoop now D q s c).expired = true →
      (expireLoop now D q s c).queue.length < q.length
  | o :: rest, s, c, h => by
    by_cases hp : D < now - o.timestamp
    · simp only [expireLoop, if_pos hp]
      by_cases he : (expireLoop now D rest (s - o.value) (c - 1)).expired = true
      · have := expireLoop_expired_length now D rest (s - o.value) (c - 1) he
        simpa using Nat.lt_succ_of_lt this
      · have hf : (expireLoop now D rest (s - o.value) (c - 1)).expired = false := by
          simpa using he
        rw [expireLoop_not_expired now D rest (s - o.value) (c - 1) hf]
        simp [Nat.lt_succ_self]
    · simp [expireLoop, if_neg hp] at h

theorem expireLoop_idem (now D : ℚ) :
    ∀ (q : List Obs) (s : ℚ) (c : ℤ),
      expireLoop now D (expireLoop now D q s c).queue (expireLoop now D q s c).sum
          (expireLoop now D q s c).count
        = ⟨(expireLoop now D q s c).queue, (expireLoop now D q s c).sum,
           (expireLoop now D q s c).count, false⟩
  | [], s, c => rfl
  | o :: rest, s, c => by
    by_cases hp : D < now - o.timestamp
    · simp only [expireLoop, if_pos hp]
      exact expireLoop_idem now D rest (s - o.value) (c - 1)
    · simp only [expireLoop, if_neg hp]

theorem expireLoop_inv (now D : ℚ) :
    ∀ (q : List Obs) (s : ℚ) (c : ℤ),
      c = q.length → s = (q.map (fun o => o.value)).sum →
      (expireLoop now D q s c).count = ((expireLoop now D q s c).queue.length : ℤ) ∧
      (expireLoop now D q s c).sum = ((expireLoop now D q s c).queue.map (fun o => o.value)).sum
  | [], s, c, hc, hs => by simp [expireLoop, hc, hs]
  | o :: rest, s, c, hc, hs => by
    by_cases hp : D < now - o.timestamp
    · simp only [expireLoop, if_pos hp]
      refine expireLoop_inv now D rest (s - o.value) (c - 1) ?_ ?_
      · simp [hc]
      · simp at hs; simp [hs]
    · simp only [expireLoop, if_neg hp]
      exact ⟨hc, hs⟩

theorem expireLoop_queue_dropWhile (now D : ℚ) :
    ∀ (q : List Obs) (s : ℚ) (c : ℤ),
      (expireLoop now D q s c).queue
        = q.dropWhile (fun o => decide (D < now - o.timestamp))
  | [], s, c => rfl
  | o :: rest, s, c => by
    by_cases hp : D < now - o.timestamp
    · simp only [expireLoop, if_pos hp, List.dropWhile]
      rw [expireLoop_queue_dropWhile now D rest (s - o.value) (c - 1)]
      simp [hp]
    · simp [expireLoop, if_neg hp, List.dropWhile, hp]

theorem jsSort_perm (l : List ℚ) : (jsSort l).Perm l :=
  List.perm_insertionSort _ l

theorem jsSort_length (l : List ℚ) : (jsSort l).length = l.length :=
  (jsSort_perm l).length_eq

theorem jsSort_sorted (l : List ℚ) : (jsSort l).Pairwise (fun a b => a ≤ b) :=
  List.sorted_insertionSort (fun a b : ℚ => a ≤ b) l

theorem windowInv_init : WindowInv initWindow := by
  refine ⟨rfl, rfl, ?_⟩
  intro c hc
  simp [initWindow] at hc

theorem windowInv_record (t v : ℚ) (w : WindowData) (h : WindowInv w) :
    WindowInv (record t v w) := by
  obtain ⟨hc, hs, hcache⟩ := h
  refine ⟨?_, ?_, ?_⟩
  · simp [record, hc]
  · simp [record, windowValues] at hs ⊢
    simp [hs]
  · intro c hsv
    simp only [record] at hsv
    obtain ⟨hlen, hval⟩ := hcache c hsv
    constructor
    · simp [record]
      exact Nat.le_succ_of_le hlen
    · simp only [record]
      rw [List.take_append_of_le_length hlen]
      exact hval

theorem windowInv_expire (now D : ℚ) (w : WindowData) (h : WindowInv w) :
    WindowInv (removeExpiredRecords now D w) := by
  obtain ⟨hc, hs, hcache⟩ := h
  have hinv := expireLoop_inv now D w.queue w.sum w.count hc hs
  refine ⟨hinv.1, ?_, ?_⟩
  · simpa [removeExpiredRecords, windowValues] using hinv.2
  · intro c hsv
    simp only [removeExpiredRecords] at hsv ⊢
    by_cases he : (expireLoop now D w.queue w.sum w.count).expired = true
    · simp [he] at hsv
    · have hf : (expireLoop now D w.queue w.sum w.count).expired = false := by
        simpa using he
      rw [expireLoop_not_expired now D w.queue w.sum w.count hf] at hsv ⊢
      simp at hsv
      exact hcache c hsv

theorem windowInv_fresh_sorted (w : WindowData) (h : WindowInv w) :
    WindowInv { w with sortedValues := some (jsSort (windowValues w)) } := by
  obtain ⟨hc, hs, _⟩ := h
  refine ⟨hc, hs, ?_⟩
  intro c hc2
  simp only [Option.some.injEq] at hc2
  have hlen : (jsSort (windowValues w)).length = w.queue.length := by
    rw [jsSort_length]
    simp [windowValues]
  constructor
  · rw [← hc2, hlen]
  · rw [← hc2, hlen]
    simp only [List.take_length]
    rfl

theorem windowInv_query (sr : SortRequirement) (w : WindowData) (h : WindowInv w) :
    WindowInv (getValues w sr).2 := by
  by_cases h0 : w.count = 0
  · simpa [getValues, h0] using h
  · have hfresh := windowInv_fresh_sorted w h
    simp only [getValues, if_neg h0]
    rcases hsv : w.sortedValues with _ | c
    · cases sr
      · exact hfresh
      · exact h
      · exact h
      · exact h
    · by_cases hhit : c.length = w.queue.length ∧ sr ≠ SortRequirement.UNSORTED
      · simp only [if_pos hhit]
        exact h
      · simp only [if_neg hhit]
        cases sr
        · exact hfresh
        · exact h
        · exact h
        · exact h

theorem windowInv_applyOp (D : ℚ) (w : WindowData) (op : Op) (h : WindowInv w) :
    WindowInv (applyOp D w op) := by
  cases op
  · exact windowInv_record _ _ w h
  · exact windowInv_expire _ D w h
  · exact windowInv_query _ w h

theorem windowInv_applyOps (D : ℚ) (ops : List Op) :
    ∀ w : WindowData, WindowInv w → WindowInv (applyOps D w ops) := by
  induction ops with
  | nil => exact fun w h => h
  | cons op rest ih =>
    intro w h
    exact ih (applyOp D w op) (windowInv_applyOp D w op h)

theorem windowInv_applyOps_init (D : ℚ) (ops : List Op) :
    WindowInv (applyOps D initWindow ops) :=
  windowInv_applyOps D ops initWindow windowInv_init

theorem windowInv_applyStoreOps (ops : List Op) :
    ∀ s : Store, (∀ p ∈ s, WindowInv p.2) →
      ∀ p ∈ applyStoreOps s ops, WindowInv p.2 := by
  induction ops with
  | nil => exact fun s h => h
  | cons op rest ih =>
    intro s h p hp
    refine ih (applyStoreOp s op) ?_ p hp
    intro q hq
    simp only [applyStoreOp, List.mem_map] at hq
    obtain ⟨r, hr, hrq⟩ := hq
    rw [← hrq]
    exact windowInv_applyOp r.1 r.2 op (h r hr)

theorem windowInv_initStore (durations : List ℚ) :
    ∀ p ∈ initStore durations, WindowInv p.2 := by
  intro p hp
  simp only [initStore, List.mem_map] at hp
  obtain ⟨D, _, hD⟩ := hp
  rw [← hD]
  exact windowInv_init

theorem getValues_sorted_result (w : WindowData) (h : WindowInv w) :
    (getValues w SortRequirement.SORTED).1.1 = jsSort (windowValues w) := by
  obtain ⟨hc, _, hcache⟩ := h
  by_cases h0 : w.count = 0
  · have hq : w.queue = [] := by
      rw [h0] at hc
      exact List.length_eq_zero.mp (by exact_mod_cast hc.symm)
    simp [getValues, h0, windowValues, hq, jsSort, List.insertionSort]
  · simp only [getValues, if_neg h0]
    rcases hsv : w.sortedValues with _ | c
    · rfl
    · by_cases hhit : c.length = w.queue.length ∧
          SortRequirement.SORTED ≠ SortRequirement.UNSORTED
      · simp only [if_pos hhit]
        obtain ⟨_, hval⟩ := hcache c hsv
        rw [hval, hhit.1, List.take_length]
        rfl
      · simp only [if_neg hhit]

theorem getValues_state_of_ne_sorted (w : WindowData) (sr : SortRequirement)
    (hsr : sr ≠ SortRequirement.SORTED) : (getValues w sr).2 = w := by
  by_cases h0 : w.count = 0
  · simp [getValues, h0]
  · simp only [getValues, if_neg h0]
    rcases hsv : w.sortedValues with _ | c
    · cases sr
      · exact absurd rfl hsr
      · rfl
      · rfl
      · rfl
    · by_cases hhit : c.length = w.queue.length ∧ sr ≠ SortRequirement.UNSORTED
      · simp only [if_pos hhit]
      · simp only [if_neg hhit]
        cases sr
        · exact absurd rfl hsr
        · rfl
        · rfl
        · rfl

theorem getValues_prefer_sorted_result (w : WindowData) (h : WindowInv w) :
    (getValues w SortRequirement.PREFER_SORTED).1 = (jsSort (windowValues w), true) ∨
    (getValues w SortRequirement.PREFER_SORTED).1 = (windowValues w, false) := by
  obtain ⟨hc, _, hcache⟩ := h
  by_cases h0 : w.count = 0
  · left
    have hq : w.queue = [] := by
      rw [h0] at hc
      exact List.length_eq_zero.mp (by exact_mod_cast hc.symm)
    simp [getValues, h0, windowValues, hq, jsSort, List.insertionSort]
  · simp only [getValues, if_neg h0]
    rcases hsv : w.sortedValues with _ | c
    · right; rfl
    · by_cases hhit : c.length = w.queue.length ∧
          SortRequirement.PREFER_SORTED ≠ SortRequirement.UNSORTED
      · left
        simp only [if_pos hhit]
        obtain ⟨_, hval⟩ := hcache c hsv
        rw [hval, hhit.1, List.take_length]
        rfl
      · right
        simp only [if_neg hhit]

/-- Claim C1: for every window of the store, after any sequence of operations
(records, expiry passes, statistic queries), the window's running count equals
the length of its queue and its running sum equals the sum of the values of
the observations currently in its queue. -/
theorem claim_c1 (durations : List ℚ) (ops : List Op) :
    ∀ p ∈ applyStoreOps (initStore durations) ops,
      p.2.count = (p.2.queue.length : ℤ) ∧
      p.2.sum = (p.2.queue.map (fun o => o.value)).sum := by
  intro p hp
  have h := windowInv_applyStoreOps ops (initStore durations)
    (windowInv_initStore durations) p hp
  exact ⟨h.1, h.2.1⟩

/-- Witness for C1: a concrete one-window store after two records. -/
theorem claim_c1_witness :
    (((1000 : ℚ), ({ sum := 12, count := 2, queue := [⟨0, 5⟩, ⟨0, 7⟩], sortedValues := none } : WindowData)) ∈
      applyStoreOps (initStore [1000]) [Op.record 0 5, Op.record 0 7]) ∧
    ((2 : ℤ) = (([⟨(0 : ℚ), (5 : ℚ)⟩, ⟨0, 7⟩] : List Obs).length : ℤ) ∧
      (12 : ℚ) = (([⟨(0 : ℚ), (5 : ℚ)⟩, ⟨0, 7⟩] : List Obs).map (fun o => o.value)).sum) := by
  have hmem : ((1000 : ℚ), ({ sum := 12, count := 2, queue := [⟨0, 5⟩, ⟨0, 7⟩], sortedValues := none } : WindowData)) ∈
      applyStoreOps (initStore [1000]) [Op.record 0 5, Op.record 0 7] := by
    norm_num [applyStoreOps, applyStoreOp, applyOp, record, initStore, initWindow]
  exact ⟨hmem, claim_c1 [1000] [Op.record 0 5, Op.record 0 7] _ hmem⟩

/-- Claim C7: the expiry pass is idempotent — running it twice with the same
`now` yields a state identical to running it once (queue, sum, count and
sorted cache all unchanged by the second pass). -/
theorem claim_c7 (now D : ℚ) (w : WindowData) :
    removeExpiredRecords now D (removeExpiredRecords now D w)
      = removeExpiredRecords now D w := by
  simp only [removeExpiredRecords, expireLoop_idem]
  simp

theorem dropWhile_expired_eq_filter (now D : ℚ) :
    ∀ q : List Obs, q.Pairwise (fun a b => a.timestamp ≤ b.timestamp) →
      q.dropWhile (fun o => decide (D < now - o.timestamp))
        = q.filter (fun o => decide (now - o.timestamp ≤ D)) := by
  intro q
  induction q with
  | nil => intro _; rfl
  | cons o rest ih =>
    intro hp
    obtain ⟨hall, hrest⟩ := List.pairwise_cons.mp hp
    by_cases hexp : D < now - o.timestamp
    · rw [List.dropWhile_cons_of_pos (by simpa using hexp),
        List.filter_cons_of_neg (by simpa using not_le_of_lt hexp)]
      exact ih hrest
    · rw [List.dropWhile_cons_of_neg (by simpa using hexp),
        List.filter_cons_of_pos (by simpa using le_of_not_lt hexp)]
      congr 1
      refine (List.filter_eq_self.mpr ?_).symm
      intro x hx
      have hts : o.timestamp ≤ x.timestamp := hall x hx
      have : now - x.timestamp ≤ D := le_trans (by linarith) (le_of_not_lt hexp)
      simpa using this

theorem removeExpiredRecords_of_not_expired (now D : ℚ) (w : WindowData)
    (hf : (expireLoop now D w.queue w.sum w.count).expired = false) :
    removeExpiredRecords now D w = w := by
  simp only [removeExpiredRecords, expireLoop_not_expired now D w.queue w.sum w.count hf]
  simp

theorem foldl_min_spec (xs : List ℚ) :
    ∀ x : ℚ, (xs.foldl min x = x ∨ xs.foldl min x ∈ xs) ∧
      xs.foldl min x ≤ x ∧ ∀ y ∈ xs, xs.foldl min x ≤ y := by
  induction xs with
  | nil => simp
  | cons a t ih =>
    intro x
    obtain ⟨hmem, hle, hall⟩ := ih (min x a)
    refine ⟨?_, ?_, ?_⟩
    · simp only [List.foldl_cons]
      rcases hmem with h | h
      · rcases min_choice x a with hm | hm
        · left; rw [h, hm]
        · right; rw [h, hm]; exact List.mem_cons_self a t
      · right; exact List.mem_cons_of_mem a h
    · simp only [List.foldl_cons]
      exact le_trans hle (min_le_left x a)
    · intro y hy
      simp only [List.foldl_cons]
      rcases List.mem_cons.mp hy with h | h
      · rw [h]; exact le_trans hle (min_le_right x a)
      · exact hall y h

theorem foldl_max_spec (xs : List ℚ) :
    ∀ x : ℚ, (xs.foldl max x = x ∨ xs.foldl max x ∈ xs) ∧
      x ≤ xs.foldl max x ∧ ∀ y ∈ xs, y ≤ xs.foldl max x := by
  induction xs with
  | nil => simp
  | cons a t ih =>
    intro x
    obtain ⟨hmem, hle, hall⟩ := ih (max x a)
    refine ⟨?_, ?_, ?_⟩
    · simp only [List.foldl_cons]
      rcases hmem with h | h
      · rcases max_choice x a with hm | hm
        · left; rw [h, hm]
        · right; rw [h, hm]; exact List.mem_cons_self a t
      · right; exact List.mem_cons_of_mem a h
    · simp only [List.foldl_cons]
      exact le_trans (le_max_left x a) hle
    · intro y hy
      simp only [List.foldl_cons]
      rcases List.mem_cons.mp hy with h | h
      · rw [h]; exact le_trans (le_max_right x a) hle
      · exact hall y h

theorem getD_mem_of_lt (l : List ℚ) (i : ℕ) (h : i < l.length) : l.getD i 0 ∈ l := by
  rw [List.getD_eq_getElem l 0 h]
  exact List.getElem_mem h

theorem sorted_getD_zero_le (l : List ℚ) (hl : l.Pairwise (fun a b => a ≤ b)) :
    ∀ x ∈ l, l.getD 0 0 ≤ x := by
  cases l with
  | nil => simp
  | cons a t =>
    intro x hx
    rcases List.mem_cons.mp hx with h | h
    · rw [h]; exact le_refl _
    · exact (List.pairwise_cons.mp hl).1 x h

theorem sorted_le_getD_last (l : List ℚ) (hl : l.Pairwise (fun a b => a ≤ b)) :
    ∀ x ∈ l, x ≤ l.getD (l.length - 1) 0 := by
  induction l with
  | nil => simp
  | cons a t ih =>
    obtain ⟨hall, ht⟩ := List.pairwise_cons.mp hl
    cases t with
    | nil =>
      intro x hx
      rcases List.mem_cons.mp hx with h | h
      · rw [h]; exact le_refl _
      · simp at h
    | cons b t2 =>
      have hidx : (a :: b :: t2).length - 1 = (b :: t2).length - 1 + 1 := by
        simp
      intro x hx
      have hlast : (a :: b :: t2).getD ((a :: b :: t2).length - 1) 0
          = (b :: t2).getD ((b :: t2).length - 1) 0 := by
        rw [hidx]
        rfl
      have hmem2 : (b :: t2).getD ((b :: t2).length - 1) 0 ∈ b :: t2 := by
        apply getD_mem_of_lt
        simp
      rcases List.mem_cons.mp hx with h | h
      · rw [h, hlast]
        exact hall _ hmem2
      · rw [hlast]
        exact ih ht x h

/-- Claim C6: expiry uses strict inequality at the boundary — for a queue
with monotone timestamps, an expiry pass at time `now` with duration `D`
keeps exactly the observations with `now - t ≤ D` and removes exactly those
with `now - t > D`; an observation exactly at the boundary age is retained. -/
theorem claim_c6 (now D : ℚ) (w : WindowData)
    (hmono : w.queue.Pairwise (fun a b => a.timestamp ≤ b.timestamp)) :
    (removeExpiredRecords now D w).queue
      = w.queue.filter (fun o => decide (now - o.timestamp ≤ D)) ∧
    ∀ o ∈ w.queue, (o ∈ (removeExpiredRecords now D w).queue ↔ now - o.timestamp ≤ D) := by
  have hq : (removeExpiredRecords now D w).queue
      = w.queue.filter (fun o => decide (now - o.timestamp ≤ D)) := by
    simp only [removeExpiredRecords]
    rw [expireLoop_queue_dropWhile]
    exact dropWhile_expired_eq_filter now D w.queue hmono
  refine ⟨hq, ?_⟩
  intro o ho
  rw [hq]
  constructor
  · intro hmem
    have := (List.mem_filter.mp hmem).2
    simpa using this
  · intro hle
    exact List.mem_filter.mpr ⟨ho, by simpa using hle⟩

/-- Witness for C6: a two-observation window at `now = 1005`, `D = 1000`,
where the first observation (age 1005) expires and the second (age 995)
is retained. -/
theorem claim_c6_witness :
    (({ sum := 12, count := 2, queue := [⟨0, 5⟩, ⟨10, 7⟩], sortedValues := none } : WindowData).queue.Pairwise
        (fun a b => a.timestamp ≤ b.timestamp)) ∧
    ((removeExpiredRecords 1005 1000
        { sum := 12, count := 2, queue := [⟨0, 5⟩, ⟨10, 7⟩], sortedValues := none }).queue
      = (({ sum := 12, count := 2, queue := [⟨0, 5⟩, ⟨10, 7⟩], sortedValues := none } : WindowData)).queue.filter
          (fun o => decide (1005 - o.timestamp ≤ 1000)) ∧
      ∀ o ∈ (({ sum := 12, count := 2, queue := [⟨0, 5⟩, ⟨10, 7⟩], sortedValues := none } : WindowData)).queue,
        (o ∈ (removeExpiredRecords 1005 1000
            { sum := 12, count := 2, queue := [⟨0, 5⟩, ⟨10, 7⟩], sortedValues := none }).queue ↔
          1005 - o.timestamp ≤ 1000)) := by
  have hmono : (({ sum := 12, count := 2, queue := [⟨0, 5⟩, ⟨10, 7⟩], sortedValues := none } : WindowData)).queue.Pairwise
      (fun a b => a.timestamp ≤ b.timestamp) := by
    norm_num [List.pairwise_cons]
  exact ⟨hmono, claim_c6 1005 1000 _ hmono⟩

/-- Counterexample for claim C4: after `record 1`, a sorted query (which
caches `[1]`), and `record 2`, the window's `sortedValues` is still present
(`some [1]`) although a record just ran and the queue now holds 2
observations — so the cache is not absent after every record, and a present
cache's length can differ from the queue's length. -/
theorem claim_c4_counterexample :
    (applyOps 100 initWindow
        [Op.record 0 1, Op.query SortRequirement.SORTED, Op.record 1 2]).sortedValues
      = some [1] ∧
    (applyOps 100 initWindow
        [Op.record 0 1, Op.query SortRequirement.SORTED, Op.record 1 2]).queue.length = 2 := by
  constructor
  · norm_num [applyOps, applyOp, record, getValues, windowValues, jsSort,
      initWindow, List.insertionSort]
  · norm_num [applyOps, applyOp, record, getValues, windowValues, jsSort,
      initWindow, List.insertionSort]

/-- Claim C4 (amended): an expiry pass that pops at least one observation
clears the sorted cache; a record leaves the cache field in place but makes
it strictly shorter than the queue (so the length guard in `getValues` never
serves it); and whenever the cache is present with length equal to the
queue's length, its contents equal the ascending sort of the queue's
values. -/
theorem claim_c4_amended (D : ℚ) (ops : List Op) :
    (∀ c, (applyOps D initWindow ops).sortedValues = some c →
      c.length = (applyOps D initWindow ops).queue.length →
      c = jsSort (windowValues (applyOps D initWindow ops))) ∧
    (∀ now, (removeExpiredRecords now D (applyOps D initWindow ops)).queue.length
        < (applyOps D initWindow ops).queue.length →
      (removeExpiredRecords now D (applyOps D initWindow ops)).sortedValues = none) ∧
    (∀ t v c, (record t v (applyOps D initWindow ops)).sortedValues = some c →
      c.length < (record t v (applyOps D initWindow ops)).queue.length) := by
  obtain ⟨hc, hs, hcache⟩ := windowInv_applyOps_init D ops
  refine ⟨?_, ?_, ?_⟩
  · intro c hsv hlen
    obtain ⟨_, hval⟩ := hcache c hsv
    rw [hval, hlen, List.take_length]
    rfl
  · intro now hlt
    by_cases he : (expireLoop now D (applyOps D initWindow ops).queue
        (applyOps D initWindow ops).sum (applyOps D initWindow ops).count).expired = true
    · simp [removeExpiredRecords, he]
    · rw [removeExpiredRecords_of_not_expired now D _ (by simpa using he)] at hlt
      exact absurd hlt (lt_irrefl _)
  · intro t v c hsv
    simp only [record] at hsv
    obtain ⟨hlen, _⟩ := hcache c hsv
    simp only [record, List.length_append, List.length_cons, List.length_nil]
    omega

/-- Witness for the amended C4 at the counterexample trace. -/
theorem claim_c4_amended_witness :
    ((applyOps 100 initWindow [Op.record 0 1, Op.query SortRequirement.SORTED]).sortedValues
        = some [1] ∧
      ([(1 : ℚ)].length
        = (applyOps 100 initWindow [Op.record 0 1, Op.query SortRequirement.SORTED]).queue.length) ∧
      ([(1 : ℚ)] : List ℚ)
        = jsSort (windowValues (applyOps 100 initWindow
            [Op.record 0 1, Op.query SortRequirement.SORTED]))) ∧
    ((removeExpiredRecords 200 100
          (applyOps 100 initWindow [Op.record 0 1, Op.query SortRequirement.SORTED])).queue.length
        < (applyOps 100 initWindow [Op.record 0 1, Op.query SortRequirement.SORTED]).queue.length ∧
      (removeExpiredRecords 200 100
          (applyOps 100 initWindow [Op.record 0 1, Op.query SortRequirement.SORTED])).sortedValues
        = none) ∧
    ((record 1 2 (applyOps 100 initWindow
          [Op.record 0 1, Op.query SortRequirement.SORTED])).sortedValues = some [1] ∧
      ([(1 : ℚ)].length
        < (record 1 2 (applyOps 100 initWindow
            [Op.record 0 1, Op.query SortRequirement.SORTED])).queue.length)) := by
  have hsv : (applyOps 100 initWindow
      [Op.record 0 1, Op.query SortRequirement.SORTED]).sortedValues = some [1] := by
    norm_num [applyOps, applyOp, record, getValues, windowValues, jsSort,
      initWindow, List.insertionSort]
  have hlen : ([(1 : ℚ)].length
      = (applyOps 100 initWindow [Op.record 0 1, Op.query SortRequirement.SORTED]).queue.length) := by
    norm_num [applyOps, applyOp, record, getValues, windowValues, jsSort,
      initWindow, List.insertionSort]
  have hdrop : (removeExpiredRecords 200 100
      (applyOps 100 initWindow [Op.record 0 1, Op.query SortRequirement.SORTED])).queue.length
      < (applyOps 100 initWindow [Op.record 0 1, Op.query SortRequirement.SORTED]).queue.length := by
    norm_num [applyOps, applyOp, record, getValues, windowValues, jsSort,
      initWindow, List.insertionSort, removeExpiredRecords, expireLoop]
  have hsv2 : (record 1 2 (applyOps 100 initWindow
      [Op.record 0 1, Op.query SortRequirement.SORTED])).sortedValues = some [1] := by
    norm_num [applyOps, applyOp, record, getValues, windowValues, jsSort,
      initWindow, List.insertionSort]
  obtain ⟨h1, h2, h3⟩ := claim_c4_amended 100 [Op.record 0 1, Op.query SortRequirement.SORTED]
  exact ⟨⟨hsv, hlen, h1 [1] hsv hlen⟩, ⟨hdrop, h2 200 hdrop⟩, ⟨hsv2, h3 1 2 [1] hsv2⟩⟩

/-- Claim C5: for every reachable window state, retrieving sorted values
returns exactly the ascending sort of the window's current raw values —
the cache-hit path and the fresh-sort path yield the same sequence, which
is sorted and a permutation of the raw values. -/
theorem claim_c5 (D : ℚ) (ops : List Op) :
    (getValues (applyOps D initWindow ops) SortRequirement.SORTED).1.1
      = jsSort (windowValues (applyOps D initWindow ops)) ∧
    (getValues (applyOps D initWindow ops) SortRequirement.SORTED).1.1.Pairwise
      (fun a b => a ≤ b) ∧
    (getValues (applyOps D initWindow ops) SortRequirement.SORTED).1.1.Perm
      (windowValues (applyOps D initWindow ops)) := by
  have hres := getValues_sorted_result (applyOps D initWindow ops)
    (windowInv_applyOps_init D ops)
  refine ⟨hres, ?_, ?_⟩
  · rw [hres]; exact jsSort_sorted _
  · rw [hres]; exact jsSort_perm _

/-- Counterexample for claim C2: the second source variant's `getAverages`
(index.ts:723-736, cited by the claim) returns the number `0` — not null —
for a window whose running count is 0. -/
theorem claim_c2_counterexample :
    initWindowV2.count = 0 ∧ getAveragesV2 initWindowV2 = 0 := by
  constructor
  · rfl
  · norm_num [getAveragesV2, initWindowV2]

/-- Claim C2 (amended): in the primary implementation, for every window with
running count 0, `getSums`, `getAverages`, `getMedians`, `getPercentiles`,
`getMinimums`, `getMaximums` and `getStandardDeviations` return null while
`getCounts` returns 0; the second variant's `getAverages` instead returns the
number 0 for such windows. -/
theorem claim_c2_amended (w : WindowData) (h : w.count = 0)
    (w2 : WindowDataV2) (h2 : w2.count = 0) :
    getCountsWindow w = 0 ∧
    getSumsWindow w = none ∧
    (getAveragesWindow w).1 = none ∧
    (getMediansWindow w).1 = none ∧
    (∀ p : ℚ, (getPercentileWindow p w).1 = none) ∧
    (getMinimumsWindow w).1 = none ∧
    (getMaximumsWindow w).1 = none ∧
    (getStandardDeviationsWindow w).1 = none ∧
    getAveragesV2 w2 = 0 := by
  refine ⟨h, ?_, ?_, ?_, ?_, ?_, ?_, ?_, ?_⟩ <;>
    simp [getSumsWindow, getAveragesWindow, getMediansWindow, getPercentileWindow,
      getMinimumsWindow, getMaximumsWindow, getStandardDeviationsWindow,
      getAveragesV2, h, h2]

/-- Witness for the amended C2 at the freshly constructed (empty) windows. -/
theorem claim_c2_amended_witness :
    (initWindow.count = 0 ∧ initWindowV2.count = 0) ∧
    (getCountsWindow initWindow = 0 ∧
      getSumsWindow initWindow = none ∧
      (getAveragesWindow initWindow).1 = none ∧
      (getMediansWindow initWindow).1 = none ∧
      (∀ p : ℚ, (getPercentileWindow p initWindow).1 = none) ∧
      (getMinimumsWindow initWindow).1 = none ∧
      (getMaximumsWindow initWindow).1 = none ∧
      (getStandardDeviationsWindow initWindow).1 = none ∧
      getAveragesV2 initWindowV2 = 0) :=
  ⟨⟨rfl, rfl⟩, claim_c2_amended initWindow rfl initWindowV2 rfl⟩

/-- Claim C8: `getPercentiles p` with `p < 0` or `p > 100` fails with the
invalid-argument error and leaves the store completely unchanged, while for
`0 ≤ p ≤ 100` no such error is raised. -/
theorem claim_c8 (runExpiry : Bool) (now p : ℚ) (s : Store) :
    ((p < 0 ∨ 100 < p) →
      getPercentilesStore runExpiry now p s
        = (Except.error "Percentile must be between 0 and 100", s)) ∧
    (0 ≤ p → p ≤ 100 →
      ∃ results, (getPercentilesStore runExpiry now p s).1 = Except.ok results) := by
  constructor
  · intro h
    simp [getPercentilesStore, h]
  · intro h1 h2
    have hng : ¬(p < 0 ∨ 100 < p) := by
      push_neg
      exact ⟨h1, h2⟩
    simp only [getPercentilesStore, if_neg hng]
    exact ⟨_, rfl⟩

/-- Witness for C8 at `p = 101` (error, state unchanged) and `p = 50` (ok). -/
theorem claim_c8_witness :
    (((101 : ℚ) < 0 ∨ (100 : ℚ) < 101) ∧
      getPercentilesStore false 0 101 (initStore [60000])
        = (Except.error "Percentile must be between 0 and 100", initStore [60000])) ∧
    ((0 : ℚ) ≤ 50 ∧ (50 : ℚ) ≤ 100 ∧
      ∃ results, (getPercentilesStore false 0 50 (initStore [60000])).1
        = Except.ok results) := by
  have hbad : ((101 : ℚ) < 0 ∨ (100 : ℚ) < 101) := by norm_num
  refine ⟨⟨hbad, (claim_c8 false 0 101 (initStore [60000])).1 hbad⟩,
    ⟨by norm_num, by norm_num, (claim_c8 false 0 50 (initStore [60000])).2
      (by norm_num) (by norm_num)⟩⟩

/-- Claim C9: for every reachable non-empty window, `getMinimums` returns
the smallest and `getMaximums` the largest value currently in the window,
and neither query mutates the window at all — in particular an absent
sorted cache stays absent (no sort is forced). -/
theorem claim_c9 (D : ℚ) (ops : List Op) :
    ((applyOps D initWindow ops).count ≠ 0 →
      (∃ m, (getMinimumsWindow (applyOps D initWindow ops)).1 = some m ∧
        m ∈ windowValues (applyOps D initWindow ops) ∧
        ∀ x ∈ windowValues (applyOps D initWindow ops), m ≤ x) ∧
      (∃ m, (getMaximumsWindow (applyOps D initWindow ops)).1 = some m ∧
        m ∈ windowValues (applyOps D initWindow ops) ∧
        ∀ x ∈ windowValues (applyOps D initWindow ops), x ≤ m)) ∧
    (getMinimumsWindow (applyOps D initWindow ops)).2 = applyOps D initWindow ops ∧
    (getMaximumsWindow (applyOps D initWindow ops)).2 = applyOps D initWindow ops := by
  set w := applyOps D initWindow ops with hw
  have hinv := windowInv_applyOps_init D ops
  rw [← hw] at hinv
  have hstate := getValues_state_of_ne_sorted w SortRequirement.PREFER_SORTED (by simp)
  refine ⟨?_, ?_, ?_⟩
  · intro h0
    have hvalsne : windowValues w ≠ [] := by
      intro hnil
      apply h0
      have : w.queue = [] := by
        simpa [windowValues] using congrArg List.length hnil
      rw [hinv.1, this]
      rfl
    have hsortne : jsSort (windowValues w) ≠ [] := by
      intro hnil
      apply hvalsne
      have := congrArg List.length hnil
      rw [jsSort_length] at this
      exact List.length_eq_zero.mp this
    rcases getValues_prefer_sorted_result w hinv with hres | hres
    · -- served sorted (cache hit or empty)
      constructor
      · refine ⟨(jsSort (windowValues w)).getD 0 0, ?_, ?_, ?_⟩
        · simp [getMinimumsWindow, if_neg h0, hres]
        · exact (jsSort_perm (windowValues w)).mem_iff.mp
            (getD_mem_of_lt _ 0 (by
              rw [jsSort_length]
              exact List.length_pos.mpr hvalsne))
        · intro x hx
          exact sorted_getD_zero_le (jsSort (windowValues w))
            (jsSort_sorted (windowValues w)) x
            ((jsSort_perm (windowValues w)).mem_iff.mpr hx)
      · refine ⟨(jsSort (windowValues w)).getD ((jsSort (windowValues w)).length - 1) 0,
          ?_, ?_, ?_⟩
        · simp [getMaximumsWindow, if_neg h0, hres]
        · exact (jsSort_perm (windowValues w)).mem_iff.mp
            (getD_mem_of_lt _ _ (by
              rw [jsSort_length]
              have := List.length_pos.mpr hvalsne
              omega))
        · intro x hx
          exact sorted_le_getD_last (jsSort (windowValues w))
            (jsSort_sorted (windowValues w)) x
            ((jsSort_perm (windowValues w)).mem_iff.mpr hx)
    · -- linear scan path
      rcases hvals : windowValues w with _ | ⟨x, xs⟩
      · exact absurd hvals hvalsne
      constructor
      · refine ⟨xs.foldl min x, ?_, ?_, ?_⟩
        · simp [getMinimumsWindow, if_neg h0, hres, hvals, calculateMinimum]
        · obtain ⟨hmem, _, _⟩ := foldl_min_spec xs x
          rcases hmem with h | h
          · rw [h]; exact List.mem_cons_self x xs
          · exact List.mem_cons_of_mem x h
        · intro y hy
          obtain ⟨_, hle, hall⟩ := foldl_min_spec xs x
          rcases List.mem_cons.mp hy with h | h
          · rw [h]; exact hle
          · exact hall y h
      · refine ⟨xs.foldl max x, ?_, ?_, ?_⟩
        · simp [getMaximumsWindow, if_neg h0, hres, hvals, calculateMaximum]
        · obtain ⟨hmem, _, _⟩ := foldl_max_spec xs x
          rcases hmem with h | h
          · rw [h]; exact List.mem_cons_self x xs
          · exact List.mem_cons_of_mem x h
        · intro y hy
          obtain ⟨_, hle, hall⟩ := foldl_max_spec xs x
          rcases List.mem_cons.mp hy with h | h
          · rw [h]; exact hle
          · exact hall y h
  · by_cases h0 : w.count = 0
    · simp [getMinimumsWindow, h0]
    · simp only [getMinimumsWindow, if_neg h0]
      exact hstate
  · by_cases h0 : w.count = 0
    · simp [getMaximumsWindow, h0]
    · simp only [getMaximumsWindow, if_neg h0]
      exact hstate

theorem floor_eq_num_of_den_one (q : ℚ) (h : q.den = 1) : ⌊q⌋ = q.num := by
  have h2 := (Rat.den_eq_one_iff q).mp h
  conv_lhs => rw [← h2]
  exact Int.floor_intCast _

theorem rat_eq_floor_iff_den_one (q : ℚ) : q = ((⌊q⌋ : ℤ) : ℚ) ↔ q.den = 1 := by
  constructor
  · intro h
    rw [h]
    exact Rat.den_intCast _
  · intro h
    rw [floor_eq_num_of_den_one q h]
    exact ((Rat.den_eq_one_iff q).mp h).symm

/-- Claim C3: `calculatePercentile` implements the Hyndman–Fan type 7
estimator exactly as the specification states it (for sorted non-empty input
and `0 ≤ p ≤ 100` it agrees with the spec-side formula, including the
single-element rule), and on the sorted values `[1,...,10]` it yields
`percentile(0) = 1`, `percentile(100) = 10`, `percentile(50) = 5.5`,
`percentile(10) = 1.9` and `percentile(90) = 9.1`. -/
theorem claim_c3 :
    (∀ (v : List ℚ) (p : ℚ), v ≠ [] → v.Pairwise (fun a b => a ≤ b) →
      0 ≤ p → p ≤ 100 → calculatePercentile v p = some (hf7Type7Spec v p)) ∧
    calculatePercentile [1, 2, 3, 4, 5, 6, 7, 8, 9, 10] 0 = some 1 ∧
    calculatePercentile [1, 2, 3, 4, 5, 6, 7, 8, 9, 10] 100 = some 10 ∧
    calculatePercentile [1, 2, 3, 4, 5, 6, 7, 8, 9, 10] 50 = some (11 / 2) ∧
    calculatePercentile [1, 2, 3, 4, 5, 6, 7, 8, 9, 10] 10 = some (19 / 10) ∧
    calculatePercentile [1, 2, 3, 4, 5, 6, 7, 8, 9, 10] 90 = some (91 / 10) := by
  refine ⟨?_, ?_, ?_, ?_, ?_, ?_⟩
  · intro v p hne _ _ _
    have hlen0 : v.length ≠ 0 := fun h => hne (List.length_eq_zero.mp h)
    by_cases hlen1 : v.length = 1
    · simp [calculatePercentile, hf7Type7Spec, hlen0, hlen1, nth1]
    · simp only [calculatePercentile, hf7Type7Spec, if_neg hlen0, if_neg hlen1]
      by_cases hd : (((v.length : ℚ) - 1) * (p / 100) + 1).den = 1
      · have hcond : ((v.length : ℚ) - 1) * (p / 100) + 1
            = ((⌊((v.length : ℚ) - 1) * (p / 100) + 1⌋ : ℤ) : ℚ) :=
          (rat_eq_floor_iff_den_one _).mpr hd
        rw [if_pos hcond, if_pos hd]
        simp only [nth1, floor_eq_num_of_den_one _ hd]
      · have hcond : ¬ ((v.length : ℚ) - 1) * (p / 100) + 1
            = ((⌊((v.length : ℚ) - 1) * (p / 100) + 1⌋ : ℤ) : ℚ) :=
          fun hc => hd ((rat_eq_floor_iff_den_one _).mp hc)
        rw [if_neg hcond, if_neg hd]
        simp only [nth1]
  · norm_num [calculatePercentile, List.getD]
  · norm_num [calculatePercentile, List.getD, show Int.toNat 9 = 9 from rfl]
  · have e1 : ⌈(11 : ℚ) / 2⌉ = 6 := by
      rw [Int.ceil_eq_iff] ; norm_num
    norm_num [calculatePercentile, e1, List.getD, show Int.toNat 4 = 4 from rfl,
      show Int.toNat 5 = 5 from rfl]
  · have e1 : ⌈(19 : ℚ) / 10⌉ = 2 := by
      rw [Int.ceil_eq_iff] ; norm_num
    norm_num [calculatePercentile, e1, List.getD]
  · have e1 : ⌈(91 : ℚ) / 10⌉ = 10 := by
      rw [Int.ceil_eq_iff] ; norm_num
    norm_num [calculatePercentile, e1, List.getD, show Int.toNat 8 = 8 from rfl,
      show Int.toNat 9 = 9 from rfl]

/-- Witness for C3: the equivalence instantiated at `v = [1, 2]`, `p = 50`. -/
theorem claim_c3_witness :
    (([(1 : ℚ), 2] : List ℚ) ≠ [] ∧ ([(1 : ℚ), 2] : List ℚ).Pairwise (fun a b => a ≤ b) ∧
      (0 : ℚ) ≤ 50 ∧ (50 : ℚ) ≤ 100) ∧
    calculatePercentile [1, 2] 50 = some (hf7Type7Spec [1, 2] 50) := by
  have h1 : ([(1 : ℚ), 2] : List ℚ) ≠ [] := by simp
  have h2 : ([(1 : ℚ), 2] : List ℚ).Pairwise (fun a b => a ≤ b) := by
    norm_num [List.pairwise_cons]
  exact ⟨⟨h1, h2, by norm_num, by norm_num⟩,
    claim_c3.1 [1, 2] 50 h1 h2 (by norm_num) (by norm_num)⟩

/-- Witness for C9 after recording 5 and 3 into a fresh window. -/
theorem claim_c9_witness :
    (applyOps 100 initWindow [Op.record 0 5, Op.record 1 3]).count ≠ 0 ∧
    ((∃ m, (getMinimumsWindow (applyOps 100 initWindow [Op.record 0 5, Op.record 1 3])).1
          = some m ∧
        m ∈ windowValues (applyOps 100 initWindow [Op.record 0 5, Op.record 1 3]) ∧
        ∀ x ∈ windowValues (applyOps 100 initWindow [Op.record 0 5, Op.record 1 3]), m ≤ x) ∧
      (∃ m, (getMaximumsWindow (applyOps 100 initWindow [Op.record 0 5, Op.record 1 3])).1
          = some m ∧
        m ∈ windowValues (applyOps 100 initWindow [Op.record 0 5, Op.record 1 3]) ∧
        ∀ x ∈ windowValues (applyOps 100 initWindow [Op.record 0 5, Op.record 1 3]), x ≤ m)) := by
  have h0 : (applyOps 100 initWindow [Op.record 0 5, Op.record 1 3]).count ≠ 0 := by
    norm_num [applyOps, applyOp, record, initWindow]
  exact ⟨h0, (claim_c9 100 [Op.record 0 5, Op.record 1 3]).1 h0⟩

theorem calculatePercentileJS_nan (xs : List ℚ) (h2 : 2 ≤ xs.length) :
    calculatePercentileJS xs JVal.nan = some JVal.nan := by
  have h0 : xs.length ≠ 0 := by omega
  have h1 : xs.length ≠ 1 := by omega
  simp [calculatePercentileJS, h0, h1, jDiv, jMul, jAdd, jFloor, jStrictEq, jSub,
    jIndex, jCeil]

/-- Claim C10: a `NaN` percentile argument bypasses the range guard (both
comparisons are false), so `getPercentiles NaN` raises no error; every
reachable window with at least two observations yields `NaN`, while a
single-observation window still yields its one value. -/
theorem claim_c10 (D : ℚ) (ops : List Op) :
    (∀ e, getPercentilesJS JVal.nan (applyOps D initWindow ops) ≠ Except.error e) ∧
    (2 ≤ (applyOps D initWindow ops).count →
      getPercentilesJS JVal.nan (applyOps D initWindow ops)
        = Except.ok (some JVal.nan,
            (getValues (applyOps D initWindow ops) SortRequirement.SORTED).2)) ∧
    (∀ o, (applyOps D initWindow ops).queue = [o] →
      getPercentilesJS JVal.nan (applyOps D initWindow ops)
        = Except.ok (some (JVal.num o.value),
            (getValues (applyOps D initWindow ops) SortRequirement.SORTED).2)) := by
  have hinv := windowInv_applyOps_init D ops
  have hres := getValues_sorted_result (applyOps D initWindow ops) hinv
  refine ⟨?_, ?_, ?_⟩
  · intro e
    by_cases h0 : (applyOps D initWindow ops).count = 0
    · simp [getPercentilesJS, jLt, h0]
    · simp [getPercentilesJS, jLt, h0]
  · intro hcount
    have h0 : (applyOps D initWindow ops).count ≠ 0 := by omega
    have hlen : (getValues (applyOps D initWindow ops) SortRequirement.SORTED).1.1.length
        = (applyOps D initWindow ops).queue.length := by
      rw [hres, jsSort_length]
      simp [windowValues]
    have h2 : 2 ≤ (getValues (applyOps D initWindow ops) SortRequirement.SORTED).1.1.length := by
      rw [hlen]
      have hc := hinv.1
      omega
    simp only [getPercentilesJS, jLt, Bool.or_false, Bool.false_eq_true, if_false, if_neg h0]
    rw [calculatePercentileJS_nan _ h2]
  · intro o hqueue
    have h0 : (applyOps D initWindow ops).count ≠ 0 := by
      rw [hinv.1, hqueue]
      simp
    have hvals : (getValues (applyOps D initWindow ops) SortRequirement.SORTED).1.1
        = [o.value] := by
      rw [hres]
      have : windowValues (applyOps D initWindow ops) = [o.value] := by
        simp [windowValues, hqueue]
      rw [this]
      rfl
    simp only [getPercentilesJS, jLt, Bool.or_false, Bool.false_eq_true, if_false, if_neg h0]
    rw [hvals]
    rfl

/-- Witness for C10 on a two-observation window and a one-observation
window. -/
theorem claim_c10_witness :
    (2 ≤ (applyOps 100 initWindow [Op.record 0 5, Op.record 1 3]).count ∧
      getPercentilesJS JVal.nan (applyOps 100 initWindow [Op.record 0 5, Op.record 1 3])
        = Except.ok (some JVal.nan,
            (getValues (applyOps 100 initWindow [Op.record 0 5, Op.record 1 3])
              SortRequirement.SORTED).2)) ∧
    ((applyOps 100 initWindow [Op.record 0 7]).queue = [⟨0, 7⟩] ∧
      getPercentilesJS JVal.nan (applyOps 100 initWindow [Op.record 0 7])
        = Except.ok (some (JVal.num (Obs.mk 0 7).value),
            (getValues (applyOps 100 initWindow [Op.record 0 7])
              SortRequirement.SORTED).2)) := by
  have hcount : 2 ≤ (applyOps 100 initWindow [Op.record 0 5, Op.record 1 3]).count := by
    norm_num [applyOps, applyOp, record, initWindow]
  have hqueue : (applyOps 100 initWindow [Op.record 0 7]).queue = [⟨0, 7⟩] := by
    norm_num [applyOps, applyOp, record, initWindow]
  exact ⟨⟨hcount, (claim_c10 100 [Op.record 0 5, Op.record 1 3]).2.1 hcount⟩,
    ⟨hqueue, (claim_c10 100 [Op.record 0 7]).2.2 ⟨0, 7⟩ hqueue⟩⟩

end SnapMetrics
